import Mathlib

/-!
# Verification of the distBVH collision-object orchestration pipeline

A shallow embedding of `src/bvh/collision_object.cpp` (distBVH): the patch /
snapshot model built by `set_entity_data_impl`, the message handlers in
`bvh::details`, the lazy creation of the distributed stores in
`init_broadphase`, and the step-chain schedule produced by `broadphase` /
`narrowphase`.  Machine integers (`std::size_t`, `int`) are modelled as `Nat`;
none of the modelled arithmetic can overflow in the scenarios considered.
Fatal assertions (`always_assert`) are modelled with `Except`, the error value
carrying the quantities named in the diagnostic message.
-/

namespace BVH

/-! ## Patch and snapshot model (`set_entity_data_impl`, lines 104-135) -/

/-- A local patch as built by `set_entity_data_impl`: the global patch id
`i + rank * od_factor` and the span `[sbeg, sbeg + nelements)` into the node's
snapshot buffer (`span(snapshots.data() + sbeg, nelements)`). -/
structure BroadphasePatch where
  global_id : Nat
  sbeg : Nat
  nelements : Nat
deriving DecidableEq, Repr

/-- The patch list built by the loop at lines 126-132 of
`collision_object.cpp`: for each `i < od_factor`,
`sbeg = (i == 0) ? 0 : splits_h(i-1)` and
`send = (i == num_splits) ? split_indices_h.extent(0) : splits_h(i)`,
where `num_splits = splits.extent(0)` and `n` is the extent of
`split_indices_h` (the number of local entities). -/
def setEntityDataPatches (rank od_factor n : Nat) (splits : List Nat) :
    List BroadphasePatch :=
  (List.range od_factor).map fun i =>
    let sbeg := if i = 0 then 0 else splits.getD (i - 1) 0
    let send := if i = splits.length then n else splits.getD i 0
    { global_id := i + rank * od_factor
      sbeg := sbeg
      nelements := send - sbeg }

/-- Embedding of `collision_object::set_entity_data_impl` (lines 104-135): recompute
`num_splits`, clear and resize `local_patches` to `od_factor`, then
`always_assert(num_splits + 1 == od_factor, "... splits {} do not match od
factor {}", num_splits + 1, od_factor)`; on success build the patch list.
The fatal assertion is modelled as `Except.error` carrying the two quantities
printed by the diagnostic. -/
def set_entity_data_impl (rank od_factor n : Nat) (splits : List Nat) :
    Except (Nat × Nat) (List BroadphasePatch) :=
  let num_splits := splits.length
  if num_splits + 1 = od_factor then
    Except.ok (setEntityDataPatches rank od_factor n splits)
  else
    Except.error (num_splits + 1, od_factor)

/-- The boundary sequence of the partition plan: `boundary 0 = 0`, the
`k - 1` interior boundaries are the split offsets, and the final boundary is
`n`, the number of local entities. -/
def boundary (splits : List Nat) (n i : Nat) : Nat :=
  if i = 0 then 0
  else if i ≤ splits.length then splits.getD (i - 1) 0
  else n

/-! ## Message handlers (`bvh::details`, lines 54-71) -/

/-- A globally stored narrowphase patch record: the fields assigned by
`details::set_narrowphase_patches`.  Payload bytes are modelled as a list of
byte values. -/
structure NarrowphasePatchRecord where
  patch_meta : Nat
  bytes : List Nat
  origin_node : Nat
  ghost_destinations : List Nat
deriving DecidableEq, Repr

/-- A narrowphase publish message (`narrowphase_patch_msg`): patch metadata,
the sender's payload buffer with the number of valid bytes `data_size`, and
the origin node. -/
structure NarrowphasePatchMsg where
  patch_meta : Nat
  user_data : List Nat
  data_size : Nat
  origin_node : Nat
deriving DecidableEq, Repr

/-- Embedding of `details::set_narrowphase_patches` (lines 61-71): install the patch
metadata, resize the byte buffer to `data_size` and `memcpy` that many bytes
from the message payload, record the origin node, then clear the record's
cached ghost destinations. -/
def set_narrowphase_patches (_coll : NarrowphasePatchRecord)
    (msg : NarrowphasePatchMsg) : NarrowphasePatchRecord :=
  { patch_meta := msg.patch_meta
    bytes := msg.user_data.take msg.data_size
    origin_node := msg.origin_node
    ghost_destinations := [] }

/-- Delivery of a batch of narrowphase publish messages to the distributed
patch store, each addressed to a store index; every delivery runs the
`set_narrowphase_patches` handler on the addressed record. -/
def populate_patches (store : Nat → NarrowphasePatchRecord)
    (msgs : List (Nat × NarrowphasePatchMsg)) : Nat → NarrowphasePatchRecord :=
  msgs.foldl
    (fun st pm j => if j = pm.1 then set_narrowphase_patches (st j) pm.2 else st j)
    store

/-! ## Per-object state touched by `init_broadphase` (lines 137-179) -/

/-- A handle to a distributed collection: the runtime identity of the proxy
and the bounds it was created with (`makeCollection(...).bounds(coll_size)`);
the interaction collection is created with dynamic membership and no
bounds. -/
structure ProxyHandle where
  handle : Nat
  bounds : Option Nat
deriving DecidableEq, Repr

/-- The fields of `collision_object::impl` read or written by
`init_broadphase`.  Result entries, active index sets and the patch cache are
modelled as opaque lists. -/
structure ObjState where
  overdecomposition : Nat
  local_results : List Nat
  active_narrowphase_indices : List Nat
  active_narrowphase_local_index : List Nat
  narrowphase_patch_cache : List Nat
  broadphase_patch_collection_proxy : Option ProxyHandle
  narrowphase_patch_collection_proxy : Option ProxyHandle
  narrowphase_collection_proxy : Option ProxyHandle
deriving DecidableEq, Repr

/-- Embedding of `collision_object::init_broadphase` (lines 137-154), state part: clear
the previous round's local results, active narrowphase index sets and
narrowphase patch cache (lines 139-142); then, only if the broadphase proxy
is not yet valid (`getProxy() == no_vrt_proxy`), create the three
distributed collections, the two patch stores bounded by
`od_factor * num_nodes` (lines 147-154).  `freshHandle` models the
runtime-assigned identity of the next collection to be created. -/
def init_broadphase (numNodes freshHandle : Nat) (s : ObjState) : ObjState :=
  let s₀ : ObjState :=
    { s with
      local_results := []
      active_narrowphase_indices := []
      active_narrowphase_local_index := []
      narrowphase_patch_cache := [] }
  let coll_size := s.overdecomposition * numNodes
  if s₀.broadphase_patch_collection_proxy = none then
    { s₀ with
      broadphase_patch_collection_proxy := some ⟨freshHandle, some coll_size⟩
      narrowphase_patch_collection_proxy := some ⟨freshHandle + 1, some coll_size⟩
      narrowphase_collection_proxy := some ⟨freshHandle + 2, none⟩ }
  else s₀

/-! ## Step-chain schedule model (`broadphase` / `narrowphase`) -/

/-- Identity of one of the two collision objects taking part in a
`broadphase(other)` round. -/
inductive ObjId
  | objA
  | objB
deriving DecidableEq, Repr

/-- How a step is scheduled on the chain set: `nextStep` (per-index),
`nextStepCollective`, or `mergeStepCollective` over two chains. -/
inductive StepKind
  | perIndex
  | collective
  | merge
deriving DecidableEq, Repr

/-- The message send performed by one local index inside a scheduled step. -/
inductive Action where
  | sendBroadphasePatch (storeIdx origin localIdx : Nat)
  | buildTree (idx : Nat)
  | beginNarrowphaseModification
  | finishNarrowphaseModification
  | broadphaseOverlap (patchIdx localIdx : Nat)
  | sendNarrowphasePatch (storeIdx origin : Nat)
  | setupNarrowphase
  | activateNarrowphase
  | requestGhosts
  | ghost (store : ObjId) (storeIdx : Nat)
  | exactNarrowphase
  | clearNarrowphase
  | noop
deriving DecidableEq, Repr

/-- One scheduled chain step: its trace label, scheduling mode, the object
whose chain set it was scheduled on, the second chain for a merge step, and
the action performed at each local index of the chain. -/
structure StepEntry where
  label : String
  kind : StepKind
  owner : ObjId
  mergedWith : Option ObjId
  actions : List (Nat × Action)
deriving DecidableEq, Repr

instance : Inhabited StepEntry :=
  ⟨{ label := "", kind := StepKind.perIndex, owner := ObjId.objA,
     mergedWith := none, actions := [] }⟩

/-- Collision-object context relevant to scheduling: its identity and its
overdecomposition factor.  The chain indices `0, ..., od - 1` are registered
at construction (lines 84-87). -/
structure ObjCtx where
  id : ObjId
  od : Nat
deriving DecidableEq, Repr

/-- Embedding of `collision_object::collision_object` (lines 74-96): the construction
arguments are the collision world, the object index and the
overdecomposition factor; the constructor stores the factor and registers
one chain index per local patch.  No payload-population mode is consumed at
construction. -/
structure ConstructArgs where
  world : Nat
  idx : Nat
  overdecomposition : Nat
deriving DecidableEq, Repr

/-- The scheduling context of a freshly constructed collision object. -/
def construct (a : ConstructArgs) (objId : ObjId) : ObjCtx :=
  { id := objId, od := a.overdecomposition }

/-- The action list of a collective step whose payload executes only at
local index 0, every other index producing a no-op completion
(`pending_send{ nullptr }`). -/
def onlyAtZero (od : Nat) (a : Action) : List (Nat × Action) :=
  (List.range od).map fun i => (i, if i = 0 then a else Action.noop)

/-- Embedding of `collision_object::narrowphase` (lines 296-353): the six chain steps it
schedules, in program order.  `rank` is the node id and
`offset = rank * od` is computed from `self`'s overdecomposition factor
(lines 298-300); note that both ghost passes are scheduled on `self`'s chain
set over `self`'s local indices and use `self`'s offset, the second pass
targeting `other`'s narrowphase patch store (lines 324-334). -/
def narrowphaseSteps (rank : Nat) (self other : ObjCtx) : List StepEntry :=
  let od := self.od
  let offset := rank * od
  [ { label := "activate_narrowphase_step", kind := StepKind.merge,
      owner := self.id, mergedWith := some other.id,
      actions := onlyAtZero od Action.activateNarrowphase },
    { label := "request_ghosts", kind := StepKind.collective,
      owner := self.id, mergedWith := none,
      actions := onlyAtZero od Action.requestGhosts },
    { label := "ghost_this", kind := StepKind.collective,
      owner := self.id, mergedWith := none,
      actions := (List.range od).map fun i => (i, Action.ghost self.id (i + offset)) },
    { label := "ghost_other", kind := StepKind.collective,
      owner := self.id, mergedWith := none,
      actions := (List.range od).map fun i => (i, Action.ghost other.id (i + offset)) },
    { label := "narrowphase", kind := StepKind.merge,
      owner := self.id, mergedWith := some other.id,
      actions := onlyAtZero od Action.exactNarrowphase },
    { label := "clear_narrowphase_step", kind := StepKind.collective,
      owner := self.id, mergedWith := none,
      actions := onlyAtZero od Action.clearNarrowphase } ]

/-- Embedding of `collision_object::set_all_narrow_patches` (lines 255-277): one
per-index chain step sending each local patch's raw payload to the
narrowphase patch store at `local + rank * od`. -/
def setAllNarrowPatchesSteps (rank : Nat) (o : ObjCtx) : List StepEntry :=
  [ { label := "narrowphase_patch_step", kind := StepKind.perIndex,
      owner := o.id, mergedWith := none,
      actions := (List.range o.od).map fun i =>
        (i, Action.sendNarrowphasePatch (i + rank * o.od) rank) } ]

/-- Embedding of `collision_object::set_active_narrow_patches` (lines 279-294): one
collective chain step; local index 0 sends `setup_narrowphase` to the
per-node coordinator. -/
def setActiveNarrowPatchesSteps (_rank : Nat) (o : ObjCtx) : List StepEntry :=
  [ { label := "set_narrowphase_patches", kind := StepKind.collective,
      owner := o.id, mergedWith := none,
      actions := onlyAtZero o.od Action.setupNarrowphase } ]

/-- Embedding of `collision_object::broadphase` (lines 212-253): the modification
bracket around the cross-object overlap merge step, then payload population
for this object and the other (the `#ifdef BVH_COPY_ALL_NARROWPHASE_PATCHES`
branch at lines 244-250, modelled by the compile-time parameter `copyAll`),
then the tail call `this->narrowphase(_other)` at line 252. -/
def broadphaseSteps (copyAll : Bool) (rank : Nat) (self other : ObjCtx) :
    List StepEntry :=
  let od := self.od
  [ { label := "start broadphase insertion", kind := StepKind.collective,
      owner := self.id, mergedWith := none,
      actions := onlyAtZero od Action.beginNarrowphaseModification },
    { label := "broadphase_step", kind := StepKind.merge,
      owner := self.id, mergedWith := some other.id,
      actions := (List.range od).map fun i =>
        (i, Action.broadphaseOverlap (i + rank * od) i) },
    { label := "finalize broadphase insertion", kind := StepKind.collective,
      owner := self.id, mergedWith := none,
      actions := onlyAtZero od Action.finishNarrowphaseModification } ]
  ++ (if copyAll then
        setAllNarrowPatchesSteps rank self ++ setAllNarrowPatchesSteps rank other
      else
        setActiveNarrowPatchesSteps rank self ++ setActiveNarrowPatchesSteps rank other)
  ++ narrowphaseSteps rank self other

/-- Whether a step entry is part of payload population (§4.3.5): the
per-index raw-payload publish of `set_all_narrow_patches` or the coordinator
trigger of `set_active_narrow_patches`. -/
def isPayloadStep (e : StepEntry) : Prop :=
  e.label = "narrowphase_patch_step" ∨ e.label = "set_narrowphase_patches"

instance (e : StepEntry) : Decidable (isPayloadStep e) := by
  unfold isPayloadStep
  infer_instance

/-- Narrowphase round state: the dynamically-sized interaction store and the
cached ghost payloads. -/
structure NarrowphaseState where
  interactions : List (Nat × Nat)
  ghostCache : List Nat
deriving DecidableEq, Repr

/-- Modelled from the spec: the effect of each scheduled action on the
narrowphase round state.  The bodies of
`collision_object_impl::activate_narrowphase`,
`collision_object_impl::ghost` and
`collision_object_impl::clear_narrowphase` live in
`collision_object/narrowphase.hpp`, which is not part of the available
source; per §4.4 of the spec, activation instantiates an interaction entry
for every active pair (the only point at which the interaction store grows),
a ghost send caches a payload at its destination, and the clear step
deactivates/frees all interaction entries and drops cached ghost
payloads. -/
def actionEffect (activePairs : List (Nat × Nat)) (s : NarrowphaseState) :
    Action → NarrowphaseState
  | Action.activateNarrowphase => { s with interactions := s.interactions ++ activePairs }
  | Action.ghost _ idx => { s with ghostCache := s.ghostCache ++ [idx] }
  | Action.clearNarrowphase => { interactions := [], ghostCache := [] }
  | _ => s

/-- Run all actions of one scheduled step over the narrowphase round
state. -/
def runStep (activePairs : List (Nat × Nat)) (s : NarrowphaseState)
    (e : StepEntry) : NarrowphaseState :=
  e.actions.foldl (fun st p => actionEffect activePairs st p.2) s

/-- Run a schedule over the narrowphase round state. -/
def runSteps (activePairs : List (Nat × Nat)) (s : NarrowphaseState)
    (es : List StepEntry) : NarrowphaseState :=
  es.foldl (runStep activePairs) s

/-- Selects from an indexed action the store index of a ghost send addressed
to object `o`'s narrowphase patch store. -/
def ghostFilter (o : ObjId) (p : Nat × Action) : Option Nat :=
  match p.2 with
  | Action.ghost store idx => if store = o then some idx else none
  | _ => none

/-- The store indices at which object `o`'s narrowphase patch store is
addressed by the ghost-exchange actions of a schedule. -/
def ghostAddresses (es : List StepEntry) (o : ObjId) : List Nat :=
  es.foldr (fun e acc => e.actions.filterMap (ghostFilter o) ++ acc) []

theorem boundary_zero (splits : List Nat) (n : Nat) : boundary splits n 0 = 0 := rfl

theorem boundary_last (splits : List Nat) (n : Nat) :
    boundary splits n (splits.length + 1) = n := by
  simp [boundary]

/-- For an ordered split plan whose offsets stay within the entity count, the
boundary sequence is monotone step by step. -/
theorem boundary_le_succ (splits : List Nat) (n : Nat)
    (hchain : splits.Chain' (· ≤ ·)) (hn : ∀ x ∈ splits, x ≤ n)
    (i : Nat) (hi : i ≤ splits.length) :
    boundary splits n i ≤ boundary splits n (i + 1) := by
  rcases Nat.eq_zero_or_pos i with h0 | hpos
  · subst h0
    exact Nat.zero_le _
  · have hi0 : i ≠ 0 := Nat.pos_iff_ne_zero.mp hpos
    rcases Nat.lt_or_ge i splits.length with hlt | hge
    · -- interior step: adjacent split offsets, ordered by the chain hypothesis
      have h1 : boundary splits n i = splits.get ⟨i - 1, by omega⟩ := by
        simp only [boundary, hi0, if_false, if_pos hi]
        exact List.getD_eq_getElem splits 0 (by omega)
      have h2 : boundary splits n (i + 1) = splits.get ⟨i, hlt⟩ := by
        have : i + 1 ≠ 0 := by omega
        simp only [boundary, this, if_false, if_pos (by omega : i + 1 ≤ splits.length)]
        have := List.getD_eq_getElem splits 0 hlt
        simpa using this
      rw [h1, h2]
      have := List.chain'_iff_get.mp hchain (i - 1) (by omega)
      have heq : i - 1 + 1 = i := by omega
      simpa [heq] using this
    · -- final step: the last split offset is bounded by the entity count
      have hie : i = splits.length := by omega
      have h1 : boundary splits n i = splits.get ⟨i - 1, by omega⟩ := by
        simp only [boundary, hi0, if_false, if_pos hi]
        exact List.getD_eq_getElem splits 0 (by omega)
      have h2 : boundary splits n (i + 1) = n := by
        simp only [boundary]
        have : ¬ (i + 1 ≤ splits.length) := by omega
        simp [this]
      rw [h1, h2]
      exact hn _ (List.get_mem splits (i - 1) (by omega))

/-- Element `i` of the built patch list, for `i < od_factor`. -/
theorem setEntityDataPatches_getD (rank od_factor n : Nat) (splits : List Nat)
    (i : Nat) (hi : i < od_factor) :
    (setEntityDataPatches rank od_factor n splits).getD i ⟨0, 0, 0⟩ =
      { global_id := i + rank * od_factor
        sbeg := if i = 0 then 0 else splits.getD (i - 1) 0
        nelements := (if i = splits.length then n else splits.getD i 0) -
          (if i = 0 then 0 else splits.getD (i - 1) 0) } := by
  unfold setEntityDataPatches
  rw [List.getD_eq_getElem _ _ (by simp [hi])]
  simp [hi]

/-- The `sbeg` / `send` expressions computed in the loop body coincide with
consecutive entries of the boundary sequence. -/
theorem setEntityDataPatches_span (rank n : Nat) (splits : List Nat)
    (hchain : splits.Chain' (· ≤ ·)) (hn : ∀ x ∈ splits, x ≤ n)
    (i : Nat) (hi : i < splits.length + 1) :
    (setEntityDataPatches rank (splits.length + 1) n splits).getD i ⟨0, 0, 0⟩ =
      { global_id := i + rank * (splits.length + 1)
        sbeg := boundary splits n i
        nelements := boundary splits n (i + 1) - boundary splits n i } ∧
    boundary splits n i ≤ boundary splits n (i + 1) := by
  have hmono := boundary_le_succ splits n hchain hn i (by omega)
  refine ⟨?_, hmono⟩
  rw [setEntityDataPatches_getD rank (splits.length + 1) n splits i hi]
  have hsbeg : (if i = 0 then 0 else splits.getD (i - 1) 0) = boundary splits n i := by
    rcases Nat.eq_zero_or_pos i with h0 | hpos
    · simp [h0, boundary]
    · have hi0 : i ≠ 0 := Nat.pos_iff_ne_zero.mp hpos
      simp only [boundary, hi0, if_false, if_pos (by omega : i ≤ splits.length)]
  have hsend : (if i = splits.length then n else splits.getD i 0) =
      boundary splits n (i + 1) := by
    rcases Nat.decEq i splits.length with hne | heq
    · have h1 : i + 1 ≤ splits.length := by omega
      simp only [boundary, hne, if_false, (by omega : i + 1 ≠ 0), if_pos h1]
      congr 1
    · have : ¬ (i + 1 ≤ splits.length) := by omega
      simp [boundary, heq, this]
  rw [hsbeg, hsend]

/-- C1: for every valid partition plan with `k - 1` ordered split boundaries
over a local entity range of `n` permuted entities, where `k` is the
overdecomposition factor, `set_entity_data` produces exactly `k` local
patches; patch `i`'s snapshot span covers `[split[i-1], split[i])` with
sentinel boundaries `0` (for `i = 0`) and `n` (for `i = k - 1`), so the `k`
spans partition `[0, n)` with no gaps or overlaps, in boundary order. -/
theorem set_entity_data_partition (rank n k : Nat) (splits : List Nat)
    (hk : splits.length + 1 = k)
    (hchain : splits.Chain' (· ≤ ·)) (hn : ∀ x ∈ splits, x ≤ n) :
    ∃ ps, set_entity_data_impl rank k n splits = Except.ok ps
      ∧ ps.length = k
      ∧ boundary splits n 0 = 0
      ∧ boundary splits n k = n
      ∧ ∀ i, i < k →
          (ps.getD i ⟨0, 0, 0⟩).global_id = i + rank * k
          ∧ (ps.getD i ⟨0, 0, 0⟩).sbeg = boundary splits n i
          ∧ (ps.getD i ⟨0, 0, 0⟩).sbeg + (ps.getD i ⟨0, 0, 0⟩).nelements =
              boundary splits n (i + 1) := by
  subst hk
  refine ⟨setEntityDataPatches rank (splits.length + 1) n splits, ?_, ?_, rfl, ?_, ?_⟩
  · simp [set_entity_data_impl]
  · simp [setEntityDataPatches]
  · exact boundary_last splits n
  · intro i hi
    obtain ⟨hget, hmono⟩ := setEntityDataPatches_span rank n splits hchain hn i hi
    rw [hget]
    exact ⟨rfl, rfl, by simpa using Nat.add_sub_cancel' hmono⟩

/-- Witness for `set_entity_data_partition`: one split boundary at offset 3
over 8 entities with overdecomposition 2 on rank 1. -/
theorem set_entity_data_partition_witness :
    ∃ ps, set_entity_data_impl 1 2 8 [3] = Except.ok ps
      ∧ ps.length = 2
      ∧ boundary [3] 8 0 = 0
      ∧ boundary [3] 8 2 = 8
      ∧ ∀ i, i < 2 →
          (ps.getD i ⟨0, 0, 0⟩).global_id = i + 1 * 2
          ∧ (ps.getD i ⟨0, 0, 0⟩).sbeg = boundary [3] 8 i
          ∧ (ps.getD i ⟨0, 0, 0⟩).sbeg + (ps.getD i ⟨0, 0, 0⟩).nelements =
              boundary [3] 8 (i + 1) :=
  set_entity_data_partition 1 8 2 [3] (by decide) (List.chain'_singleton 3) (by decide)

/-- C6: `set_entity_data` fails fatally — with a diagnostic carrying the
mismatched quantities `num_splits + 1` and `od_factor` — if and only if the
number of split boundaries plus one differs from the overdecomposition
factor; when they are equal it completes without the fatal stop. -/
theorem set_entity_data_fatal_iff (rank od_factor n : Nat) (splits : List Nat) :
    (set_entity_data_impl rank od_factor n splits =
        Except.error (splits.length + 1, od_factor) ↔ splits.length + 1 ≠ od_factor)
    ∧ ((∃ ps, set_entity_data_impl rank od_factor n splits = Except.ok ps) ↔
        splits.length + 1 = od_factor) := by
  unfold set_entity_data_impl
  by_cases h : splits.length + 1 = od_factor <;> simp [h]

/-- Witness for `set_entity_data_fatal_iff`: two boundaries cannot yield an
overdecomposition factor of 3, and the diagnostic names `2` and `3`. -/
theorem set_entity_data_fatal_iff_witness :
    set_entity_data_impl 0 3 5 [1] = Except.error (2, 3) :=
  (set_entity_data_fatal_iff 0 3 5 [1]).1.mpr (by decide)

/-! ## Step-chain schedule lemmas -/

theorem mem_onlyAtZero_iff (od : Nat) (a : Action) (p : Nat × Action) :
    p ∈ onlyAtZero od a ↔
      ∃ i, i < od ∧ p = (i, if i = 0 then a else Action.noop) := by
  simp only [onlyAtZero, List.mem_map, List.mem_range]
  constructor
  · rintro ⟨i, hi, rfl⟩
    exact ⟨i, hi, rfl⟩
  · rintro ⟨i, hi, rfl⟩
    exact ⟨i, hi, rfl⟩

theorem zero_mem_onlyAtZero (od : Nat) (a : Action) (hod : 1 ≤ od) :
    (0, a) ∈ onlyAtZero od a := by
  rw [mem_onlyAtZero_iff]
  exact ⟨0, by omega, by simp⟩

theorem onlyAtZero_action_iff (od : Nat) (a : Action) (ha : a ≠ Action.noop)
    (p : Nat × Action) (hp : p ∈ onlyAtZero od a) : p.2 = a ↔ p.1 = 0 := by
  rw [mem_onlyAtZero_iff] at hp
  obtain ⟨i, _, rfl⟩ := hp
  by_cases h0 : i = 0
  · simp [h0]
  · simp only [h0, if_false, iff_false]
    exact fun hc => ha hc.symm

theorem foldl_actionEffect_noop (activePairs : List (Nat × Nat))
    (l : List (Nat × Action)) (h : ∀ p ∈ l, p.2 = Action.noop)
    (s : NarrowphaseState) :
    l.foldl (fun st p => actionEffect activePairs st p.2) s = s := by
  induction l generalizing s with
  | nil => rfl
  | cons hd tl ih =>
    have h1 : hd.2 = Action.noop := h hd (List.mem_cons_self hd tl)
    rw [List.foldl_cons, h1]
    exact ih (fun p hp => h p (List.mem_cons_of_mem hd hp)) s

theorem foldl_actionEffect_onlyAtZero (activePairs : List (Nat × Nat))
    (od : Nat) (hod : 1 ≤ od) (a : Action) (s : NarrowphaseState) :
    (onlyAtZero od a).foldl (fun st p => actionEffect activePairs st p.2) s =
      actionEffect activePairs s a := by
  obtain ⟨m, rfl⟩ : ∃ m, od = m + 1 := ⟨od - 1, by omega⟩
  rw [onlyAtZero, List.range_succ_eq_map]
  simp only [List.map_cons, List.map_map, List.foldl_cons, if_pos rfl]
  apply foldl_actionEffect_noop
  intro p hp
  simp only [List.mem_map, Function.comp] at hp
  obtain ⟨i, _, rfl⟩ := hp
  simp

theorem runStep_onlyAtZero (activePairs : List (Nat × Nat))
    (s : NarrowphaseState) (e : StepEntry) (od : Nat) (a : Action)
    (hod : 1 ≤ od) (he : e.actions = onlyAtZero od a) :
    runStep activePairs s e = actionEffect activePairs s a := by
  rw [runStep, he]
  exact foldl_actionEffect_onlyAtZero activePairs od hod a s

theorem actionEffect_interactions_le (activePairs : List (Nat × Nat))
    (s : NarrowphaseState) (a : Action) (h : a ≠ Action.activateNarrowphase) :
    (actionEffect activePairs s a).interactions.length ≤ s.interactions.length := by
  cases a <;> first
    | exact absurd rfl h
    | simp [actionEffect]

/-- C2: every invocation of the narrowphase protocol schedules its steps in
strict order — activation (a merge step over both objects' chains), ghost
request, the two ghost-exchange passes, the exact test (a merge step), then
clear; no action other than activation can grow the interaction store, and
the clear step — which empties the interaction store and drops cached ghost
payloads — runs on every invocation, including when zero interactions were
active. -/
theorem narrowphase_schedule (rank : Nat) (self other : ObjCtx)
    (activePairs : List (Nat × Nat)) (s : NarrowphaseState)
    (hod : 1 ≤ self.od) :
    ((narrowphaseSteps rank self other).map fun e => (e.label, e.kind, e.mergedWith)) =
      [("activate_narrowphase_step", StepKind.merge, some other.id),
       ("request_ghosts", StepKind.collective, none),
       ("ghost_this", StepKind.collective, none),
       ("ghost_other", StepKind.collective, none),
       ("narrowphase", StepKind.merge, some other.id),
       ("clear_narrowphase_step", StepKind.collective, none)]
    ∧ (∀ e ∈ narrowphaseSteps rank self other, ∀ p ∈ e.actions,
        p.2 ≠ Action.activateNarrowphase →
          (actionEffect activePairs s p.2).interactions.length ≤
            s.interactions.length)
    ∧ runSteps activePairs s (narrowphaseSteps rank self other) =
        { interactions := [], ghostCache := [] } := by
  refine ⟨by simp [narrowphaseSteps], ?_, ?_⟩
  · intro e _ p _ hne
    exact actionEffect_interactions_le activePairs s p.2 hne
  · simp only [narrowphaseSteps, runSteps, List.foldl_cons, List.foldl_nil]
    exact (runStep_onlyAtZero activePairs _ _ self.od Action.clearNarrowphase hod
      rfl).trans rfl

/-- Witness for `narrowphase_schedule`: a round with overdecomposition 1 on
both sides, zero active pairs and a non-empty previous interaction state. -/
theorem narrowphase_schedule_witness :
    1 ≤ (⟨ObjId.objA, 1⟩ : ObjCtx).od ∧
    (((narrowphaseSteps 0 ⟨ObjId.objA, 1⟩ ⟨ObjId.objB, 1⟩).map
        fun e => (e.label, e.kind, e.mergedWith)) =
      [("activate_narrowphase_step", StepKind.merge, some ObjId.objB),
       ("request_ghosts", StepKind.collective, none),
       ("ghost_this", StepKind.collective, none),
       ("ghost_other", StepKind.collective, none),
       ("narrowphase", StepKind.merge, some ObjId.objB),
       ("clear_narrowphase_step", StepKind.collective, none)]
    ∧ (∀ e ∈ narrowphaseSteps 0 ⟨ObjId.objA, 1⟩ ⟨ObjId.objB, 1⟩, ∀ p ∈ e.actions,
        p.2 ≠ Action.activateNarrowphase →
          (actionEffect [] ⟨[(1, 2)], [7]⟩ p.2).interactions.length ≤
            (⟨[(1, 2)], [7]⟩ : NarrowphaseState).interactions.length)
    ∧ runSteps [] ⟨[(1, 2)], [7]⟩ (narrowphaseSteps 0 ⟨ObjId.objA, 1⟩ ⟨ObjId.objB, 1⟩) =
        { interactions := [], ghostCache := [] }) :=
  ⟨by decide,
    narrowphase_schedule 0 ⟨ObjId.objA, 1⟩ ⟨ObjId.objB, 1⟩ [] ⟨[(1, 2)], [7]⟩ (by decide)⟩

/-- C8: in every invocation of `broadphase`, the per-node coordinator is told
"begin narrowphase modification" in a collective step strictly before the
cross-object overlap merge step, and "finish narrowphase modification" in a
collective step strictly after that merge step and strictly before payload
population; each control message is sent only by local index 0 of its
collective step. -/
theorem broadphase_modification_bracket (copyAll : Bool) (rank : Nat)
    (self other : ObjCtx) (hod : 1 ≤ self.od) :
    ((broadphaseSteps copyAll rank self other).take 3).map
        (fun e => (e.label, e.kind)) =
      [("start broadphase insertion", StepKind.collective),
       ("broadphase_step", StepKind.merge),
       ("finalize broadphase insertion", StepKind.collective)]
    ∧ (0, Action.beginNarrowphaseModification) ∈
        ((broadphaseSteps copyAll rank self other).getD 0 default).actions
    ∧ (∀ p ∈ ((broadphaseSteps copyAll rank self other).getD 0 default).actions,
        p.2 = Action.beginNarrowphaseModification ↔ p.1 = 0)
    ∧ (0, Action.finishNarrowphaseModification) ∈
        ((broadphaseSteps copyAll rank self other).getD 2 default).actions
    ∧ (∀ p ∈ ((broadphaseSteps copyAll rank self other).getD 2 default).actions,
        p.2 = Action.finishNarrowphaseModification ↔ p.1 = 0)
    ∧ (∀ j < 3, ¬ isPayloadStep ((broadphaseSteps copyAll rank self other).getD j default))
    ∧ isPayloadStep ((broadphaseSteps copyAll rank self other).getD 3 default) := by
  have hb : ∀ p ∈ onlyAtZero self.od Action.beginNarrowphaseModification,
      p.2 = Action.beginNarrowphaseModification ↔ p.1 = 0 :=
    fun p hp => onlyAtZero_action_iff self.od _ (by simp) p hp
  have hf : ∀ p ∈ onlyAtZero self.od Action.finishNarrowphaseModification,
      p.2 = Action.finishNarrowphaseModification ↔ p.1 = 0 :=
    fun p hp => onlyAtZero_action_iff self.od _ (by simp) p hp
  cases copyAll <;>
    refine ⟨by simp [broadphaseSteps, setAllNarrowPatchesSteps,
        setActiveNarrowPatchesSteps],
      ?_, ?_, ?_, ?_, ?_, ?_⟩ <;>
    simp only [broadphaseSteps, setAllNarrowPatchesSteps,
      setActiveNarrowPatchesSteps, narrowphaseSteps, Bool.false_eq_true,
      if_false, if_true, List.cons_append, List.nil_append, List.getD_cons_zero,
      List.getD_cons_succ]
  · exact zero_mem_onlyAtZero self.od _ hod
  · exact hb
  · exact zero_mem_onlyAtZero self.od _ hod
  · exact hf
  · intro j hj
    interval_cases j <;> simp [isPayloadStep]
  · simp [isPayloadStep]
  · exact zero_mem_onlyAtZero self.od _ hod
  · exact hb
  · exact zero_mem_onlyAtZero self.od _ hod
  · exact hf
  · intro j hj
    interval_cases j <;> simp [isPayloadStep]
  · simp [isPayloadStep]

/-- Witness for `broadphase_modification_bracket`: the default (active-only)
mode with overdecomposition 1 on rank 0. -/
theorem broadphase_modification_bracket_witness :
    1 ≤ (⟨ObjId.objA, 1⟩ : ObjCtx).od ∧
    (((broadphaseSteps false 0 ⟨ObjId.objA, 1⟩ ⟨ObjId.objB, 1⟩).take 3).map
        (fun e => (e.label, e.kind)) =
      [("start broadphase insertion", StepKind.collective),
       ("broadphase_step", StepKind.merge),
       ("finalize broadphase insertion", StepKind.collective)]
    ∧ (0, Action.beginNarrowphaseModification) ∈
        ((broadphaseSteps false 0 ⟨ObjId.objA, 1⟩ ⟨ObjId.objB, 1⟩).getD 0 default).actions
    ∧ (∀ p ∈ ((broadphaseSteps false 0 ⟨ObjId.objA, 1⟩ ⟨ObjId.objB, 1⟩).getD 0 default).actions,
        p.2 = Action.beginNarrowphaseModification ↔ p.1 = 0)
    ∧ (0, Action.finishNarrowphaseModification) ∈
        ((broadphaseSteps false 0 ⟨ObjId.objA, 1⟩ ⟨ObjId.objB, 1⟩).getD 2 default).actions
    ∧ (∀ p ∈ ((broadphaseSteps false 0 ⟨ObjId.objA, 1⟩ ⟨ObjId.objB, 1⟩).getD 2 default).actions,
        p.2 = Action.finishNarrowphaseModification ↔ p.1 = 0)
    ∧ (∀ j < 3, ¬ isPayloadStep ((broadphaseSteps false 0 ⟨ObjId.objA, 1⟩ ⟨ObjId.objB, 1⟩).getD j default))
    ∧ isPayloadStep ((broadphaseSteps false 0 ⟨ObjId.objA, 1⟩ ⟨ObjId.objB, 1⟩).getD 3 default)) :=
  ⟨by decide,
    broadphase_modification_bracket false 0 ⟨ObjId.objA, 1⟩ ⟨ObjId.objB, 1⟩ (by decide)⟩

/-- C10: `broadphase(other)` performs the entire round beyond candidate
determination: after the overlap merge step and the modification bracket it
schedules payload population for this object and then for the other object
(in either population mode), and then invokes the full narrowphase protocol
— the schedule it produces ends with exactly the steps of
`narrowphase(other)`, so no separate narrowphase call is required. -/
theorem broadphase_performs_full_round (copyAll : Bool) (rank : Nat)
    (self other : ObjCtx) :
    ((broadphaseSteps copyAll rank self other).map fun e => (e.label, e.owner)) =
      [("start broadphase insertion", self.id),
       ("broadphase_step", self.id),
       ("finalize broadphase insertion", self.id)]
      ++ (if copyAll then
            [("narrowphase_patch_step", self.id), ("narrowphase_patch_step", other.id)]
          else
            [("set_narrowphase_patches", self.id), ("set_narrowphase_patches", other.id)])
      ++ [("activate_narrowphase_step", self.id), ("request_ghosts", self.id),
          ("ghost_this", self.id), ("ghost_other", self.id),
          ("narrowphase", self.id), ("clear_narrowphase_step", self.id)]
    ∧ (broadphaseSteps copyAll rank self other).drop 5 =
        narrowphaseSteps rank self other := by
  cases copyAll <;>
    exact ⟨by simp [broadphaseSteps, setAllNarrowPatchesSteps,
        setActiveNarrowPatchesSteps, narrowphaseSteps],
      by simp [broadphaseSteps, setAllNarrowPatchesSteps,
        setActiveNarrowPatchesSteps, narrowphaseSteps]⟩

/-! ## Ghost exchange addressing (claim C3) -/

theorem filterMap_some_comp (g : Nat → Nat) (l : List Nat) :
    (l.filterMap fun i => some (g i)) = l.map g := by
  induction l with
  | nil => rfl
  | cons h t ih => simp [List.filterMap_cons, ih]

theorem filterMap_ghost_onlyAtZero (od : Nat) (a : Action) (o : ObjId)
    (ha : ∀ st i, a ≠ Action.ghost st i) :
    (onlyAtZero od a).filterMap (ghostFilter o) = [] := by
  rw [List.filterMap_eq_nil_iff]
  intro p hp
  rw [mem_onlyAtZero_iff] at hp
  obtain ⟨i, _, rfl⟩ := hp
  by_cases h0 : i = 0
  · subst h0
    simp only [if_pos rfl]
    cases a <;> first
      | rfl
      | exact absurd rfl (ha _ _)
  · simp only [if_neg h0]
    rfl

theorem filterMap_ghost_range (od offset : Nat) (st o : ObjId) :
    (((List.range od).map fun i => (i, Action.ghost st (i + offset))).filterMap
        (ghostFilter o)) =
      if st = o then (List.range od).map (fun i => i + offset) else [] := by
  rw [List.filterMap_map]
  by_cases h : st = o
  · subst h
    rw [if_pos rfl]
    have hfun : (ghostFilter st ∘ fun i => (i, Action.ghost st (i + offset))) =
        fun i => some (i + offset) := by
      funext i
      simp [ghostFilter, Function.comp]
    rw [hfun, filterMap_some_comp]
  · rw [if_neg h]
    have hfun : (ghostFilter o ∘ fun i => (i, Action.ghost st (i + offset))) =
        fun _ => (none : Option Nat) := by
      funext i
      simp [ghostFilter, Function.comp, h]
    rw [hfun]
    rw [List.filterMap_eq_nil_iff]
    exact fun a _ => rfl

/-- The ghost addresses produced by one `narrowphase(other)` schedule: both
ghost passes iterate this object's local indices with this object's offset,
the first targeting this object's store, the second the other object's. -/
theorem ghostAddresses_narrowphaseSteps (rank : Nat) (self other : ObjCtx)
    (o : ObjId) :
    ghostAddresses (narrowphaseSteps rank self other) o =
      (if self.id = o then
        (List.range self.od).map (fun i => i + rank * self.od) else [])
      ++ (if other.id = o then
        (List.range self.od).map (fun i => i + rank * self.od) else []) := by
  simp only [ghostAddresses, narrowphaseSteps, List.foldr_cons, List.foldr_nil,
    List.append_nil]
  rw [filterMap_ghost_onlyAtZero _ _ _ (fun st i => by simp),
    filterMap_ghost_onlyAtZero _ _ _ (fun st i => by simp),
    filterMap_ghost_onlyAtZero _ _ _ (fun st i => by simp),
    filterMap_ghost_onlyAtZero _ _ _ (fun st i => by simp),
    filterMap_ghost_range, filterMap_ghost_range]
  simp

/-- C3 as stated fails on the code: with overdecomposition 2 for this object
and 1 for the other on a single node, the second ghost pass addresses the
other object's narrowphase store at indices 0 and 1 — it iterates this
object's local indices with this object's offset — whereas the other
object's only global patch id is 0. -/
theorem ghost_exchange_mismatched_od :
    ghostAddresses (narrowphaseSteps 0 ⟨ObjId.objA, 2⟩ ⟨ObjId.objB, 1⟩)
        ObjId.objB ≠
      (List.range 1).map (fun i => i + 0 * 1) := by decide

/-- C3 amended: the ghost exchange is two passes, both scheduled on this
object's chain over this object's local indices with offset
`rank * this.od`; provided the two objects have the same overdecomposition
factor, every local patch of either object is addressed in that object's
narrowphase store at that object's global patch id
(`local index + rank * od`). -/
theorem ghost_exchange_addresses (rank : Nat) (self other : ObjCtx)
    (hid : self.id ≠ other.id) (hod : self.od = other.od) :
    ghostAddresses (narrowphaseSteps rank self other) self.id =
      (List.range self.od).map (fun i => i + rank * self.od)
    ∧ ghostAddresses (narrowphaseSteps rank self other) other.id =
      (List.range other.od).map (fun i => i + rank * other.od) := by
  rw [ghostAddresses_narrowphaseSteps, ghostAddresses_narrowphaseSteps,
    if_pos rfl, if_neg (fun h => hid h.symm), if_neg hid, if_pos rfl, hod]
  simp

/-- Witness for `ghost_exchange_addresses`: both objects with
overdecomposition 2 on rank 1. -/
theorem ghost_exchange_addresses_witness :
    ghostAddresses (narrowphaseSteps 1 ⟨ObjId.objA, 2⟩ ⟨ObjId.objB, 2⟩)
        ObjId.objA =
      (List.range 2).map (fun i => i + 1 * 2)
    ∧ ghostAddresses (narrowphaseSteps 1 ⟨ObjId.objA, 2⟩ ⟨ObjId.objB, 2⟩)
        ObjId.objB =
      (List.range 2).map (fun i => i + 1 * 2) :=
  ghost_exchange_addresses 1 ⟨ObjId.objA, 2⟩ ⟨ObjId.objB, 2⟩ (by decide) rfl

/-! ## Payload-population mode selection (claim C9) -/

/-- C9 as stated fails on the code: between two collision objects built from
fixed construction arguments — so with identical construction-time state —
the payload-population schedule still differs with the compile-time flag
`BVH_COPY_ALL_NARROWPHASE_PATCHES`; the eager/lazy choice is therefore not
selected by a boolean consumed at object construction (the constructor takes
only the world, the index and the overdecomposition factor). -/
theorem payload_mode_not_construction :
    (broadphaseSteps true 0 (construct ⟨0, 0, 1⟩ ObjId.objA)
        (construct ⟨0, 1, 1⟩ ObjId.objB)).map (fun e => e.label) ≠
      (broadphaseSteps false 0 (construct ⟨0, 0, 1⟩ ObjId.objA)
        (construct ⟨0, 1, 1⟩ ObjId.objB)).map (fun e => e.label) := by decide

/-- C9 amended: the choice between eager ("copy-all") and lazy
("active-only") payload population is selected by the compile-time
preprocessor flag `BVH_COPY_ALL_NARROWPHASE_PATCHES`, common to every
collision object and every round of the build; the construction arguments of
the objects play no role in the selection. -/
theorem payload_mode_compile_time (copyAll : Bool) (rank : Nat)
    (a b : ConstructArgs) :
    (((broadphaseSteps copyAll rank (construct a ObjId.objA)
          (construct b ObjId.objB)).drop 3).take 2).map (fun e => e.label) =
      (if copyAll then ["narrowphase_patch_step", "narrowphase_patch_step"]
       else ["set_narrowphase_patches", "set_narrowphase_patches"]) := by
  cases copyAll <;>
    simp [broadphaseSteps, construct, setAllNarrowPatchesSteps,
      setActiveNarrowPatchesSteps]

/-! ## Round reset and lazy store creation (claims C4 and C5) -/

/-- C4: `init_broadphase` begins by clearing the previous round's state —
whatever state the object is in, immediately after entry the local result
list, the active narrowphase index sets and the narrowphase patch cache are
empty, so a second `init_broadphase → broadphase(other) → end_phase` round
never observes stale results or interactions from the first. -/
theorem init_broadphase_clears (numNodes freshHandle : Nat) (s : ObjState) :
    (init_broadphase numNodes freshHandle s).local_results = []
    ∧ (init_broadphase numNodes freshHandle s).active_narrowphase_indices = []
    ∧ (init_broadphase numNodes freshHandle s).active_narrowphase_local_index = []
    ∧ (init_broadphase numNodes freshHandle s).narrowphase_patch_cache = [] := by
  unfold init_broadphase
  by_cases h : s.broadphase_patch_collection_proxy = none <;> simp [h]

/-- C5: the distributed broadphase and narrowphase patch stores are created
lazily, exactly once, with bounds `overdecomposition * numNodes`; a second
`init_broadphase` call finding the proxy already valid skips re-creation and
leaves the same store handles in place. -/
theorem init_broadphase_idempotent_stores (numNodes f₁ f₂ : Nat) (s : ObjState)
    (hfresh : s.broadphase_patch_collection_proxy = none) :
    (init_broadphase numNodes f₁ s).broadphase_patch_collection_proxy =
        some ⟨f₁, some (s.overdecomposition * numNodes)⟩
    ∧ (init_broadphase numNodes f₁ s).narrowphase_patch_collection_proxy =
        some ⟨f₁ + 1, some (s.overdecomposition * numNodes)⟩
    ∧ (init_broadphase numNodes f₂
          (init_broadphase numNodes f₁ s)).broadphase_patch_collection_proxy =
        (init_broadphase numNodes f₁ s).broadphase_patch_collection_proxy
    ∧ (init_broadphase numNodes f₂
          (init_broadphase numNodes f₁ s)).narrowphase_patch_collection_proxy =
        (init_broadphase numNodes f₁ s).narrowphase_patch_collection_proxy
    ∧ (init_broadphase numNodes f₂
          (init_broadphase numNodes f₁ s)).narrowphase_collection_proxy =
        (init_broadphase numNodes f₁ s).narrowphase_collection_proxy := by
  simp [init_broadphase, hfresh]

/-- Witness for `init_broadphase_idempotent_stores`: a freshly constructed
object with overdecomposition 2 on a 3-node cluster, two calls with distinct
fresh-handle supplies. -/
theorem init_broadphase_idempotent_stores_witness :
    (init_broadphase 3 10 ⟨2, [1], [2], [3], [4], none, none, none⟩).broadphase_patch_collection_proxy =
        some ⟨10, some (2 * 3)⟩
    ∧ (init_broadphase 3 10 ⟨2, [1], [2], [3], [4], none, none, none⟩).narrowphase_patch_collection_proxy =
        some ⟨10 + 1, some (2 * 3)⟩
    ∧ (init_broadphase 3 20
          (init_broadphase 3 10 ⟨2, [1], [2], [3], [4], none, none, none⟩)).broadphase_patch_collection_proxy =
        (init_broadphase 3 10 ⟨2, [1], [2], [3], [4], none, none, none⟩).broadphase_patch_collection_proxy
    ∧ (init_broadphase 3 20
          (init_broadphase 3 10 ⟨2, [1], [2], [3], [4], none, none, none⟩)).narrowphase_patch_collection_proxy =
        (init_broadphase 3 10 ⟨2, [1], [2], [3], [4], none, none, none⟩).narrowphase_patch_collection_proxy
    ∧ (init_broadphase 3 20
          (init_broadphase 3 10 ⟨2, [1], [2], [3], [4], none, none, none⟩)).narrowphase_collection_proxy =
        (init_broadphase 3 10 ⟨2, [1], [2], [3], [4], none, none, none⟩).narrowphase_collection_proxy :=
  init_broadphase_idempotent_stores 3 10 20 ⟨2, [1], [2], [3], [4], none, none, none⟩ rfl

/-! ## Narrowphase publish handler (claim C7) -/

theorem populate_patches_not_mem (store : Nat → NarrowphasePatchRecord)
    (msgs : List (Nat × NarrowphasePatchMsg)) (idx : Nat)
    (h : idx ∉ msgs.map Prod.fst) :
    populate_patches store msgs idx = store idx := by
  induction msgs generalizing store with
  | nil => rfl
  | cons hd tl ih =>
    simp only [List.map_cons, List.mem_cons, not_or] at h
    rw [populate_patches, List.foldl_cons, ← populate_patches, ih _ (by
      intro hc
      exact h.2 hc)]
    simp [h.1]

theorem populate_patches_ghost_empty (store : Nat → NarrowphasePatchRecord)
    (msgs : List (Nat × NarrowphasePatchMsg)) (idx : Nat)
    (h : idx ∈ msgs.map Prod.fst) :
    (populate_patches store msgs idx).ghost_destinations = [] := by
  induction msgs generalizing store with
  | nil => cases h
  | cons hd tl ih =>
    rw [populate_patches, List.foldl_cons, ← populate_patches]
    by_cases hmem : idx ∈ tl.map Prod.fst
    · exact ih _ hmem
    · have hidx : idx = hd.1 := by
        simp only [List.map_cons, List.mem_cons] at h
        tauto
      rw [populate_patches_not_mem _ _ _ hmem]
      simp [hidx, set_narrowphase_patches]

/-- C7: the narrowphase publish handler installs the record's patch
metadata, copies exactly `data_size` payload bytes, records the origin node
and leaves the record's pending-ghost-destination set empty; consequently,
after payload population every published patch's pending-ghost-destination
set is empty. -/
theorem set_narrowphase_patches_resets (coll : NarrowphasePatchRecord)
    (msg : NarrowphasePatchMsg) (h : msg.data_size ≤ msg.user_data.length)
    (store : Nat → NarrowphasePatchRecord)
    (msgs : List (Nat × NarrowphasePatchMsg)) (idx : Nat)
    (hidx : idx ∈ msgs.map Prod.fst) :
    (set_narrowphase_patches coll msg).patch_meta = msg.patch_meta
    ∧ (set_narrowphase_patches coll msg).bytes = msg.user_data.take msg.data_size
    ∧ (set_narrowphase_patches coll msg).bytes.length = msg.data_size
    ∧ (set_narrowphase_patches coll msg).origin_node = msg.origin_node
    ∧ (set_narrowphase_patches coll msg).ghost_destinations = []
    ∧ (populate_patches store msgs idx).ghost_destinations = [] := by
  refine ⟨rfl, rfl, ?_, rfl, rfl, populate_patches_ghost_empty store msgs idx hidx⟩
  simp [set_narrowphase_patches, Nat.min_eq_left h]

/-- Witness for `set_narrowphase_patches_resets`: a record with a stale
ghost destination overwritten by a 2-byte publish, and a one-message payload
population at store index 4. -/
theorem set_narrowphase_patches_resets_witness :
    (set_narrowphase_patches ⟨0, [1], 2, [9]⟩ ⟨7, [3, 4, 5], 2, 6⟩).patch_meta = 7
    ∧ (set_narrowphase_patches ⟨0, [1], 2, [9]⟩ ⟨7, [3, 4, 5], 2, 6⟩).bytes =
        ([3, 4, 5] : List Nat).take 2
    ∧ (set_narrowphase_patches ⟨0, [1], 2, [9]⟩ ⟨7, [3, 4, 5], 2, 6⟩).bytes.length = 2
    ∧ (set_narrowphase_patches ⟨0, [1], 2, [9]⟩ ⟨7, [3, 4, 5], 2, 6⟩).origin_node = 6
    ∧ (set_narrowphase_patches ⟨0, [1], 2, [9]⟩ ⟨7, [3, 4, 5], 2, 6⟩).ghost_destinations = []
    ∧ (populate_patches (fun _ => ⟨0, [], 0, [8]⟩) [(4, ⟨7, [3, 4, 5], 2, 6⟩)] 4).ghost_destinations = [] :=
  set_narrowphase_patches_resets ⟨0, [1], 2, [9]⟩ ⟨7, [3, 4, 5], 2, 6⟩ (by decide)
    (fun _ => ⟨0, [], 0, [8]⟩) [(4, ⟨7, [3, 4, 5], 2, 6⟩)] 4 (by decide)

end BVH
